import Mathlib

/-!
Verification of the gist search aggregation pipeline of the gist-app
repository.  The model below is a shallow embedding of the two search
route handlers (GET api/gists/search and GET api/public-gists/search),
which share the same pipeline verbatim: reject a blank query, fetch one
page of gist summaries from the Gist Source, filter them (pass 1),
enrich every retained gist whose files lack inline content via a
get-gist-by-id call whose failure is caught per gist, and filter again
(pass 2) before responding.  The network is modelled by two oracles:
the outcome of the listing call and the get-gist-by-id operation.  The
strings in error outcomes follow the api/gists/search handler.
-/

namespace GistApp

/-- A file entry of a gist as returned by the Gist Source: its filename
and the optional inline content field, absent when the listing did not
inline the content. -/
structure GistFile where
  filename : String
  content : Option String
deriving DecidableEq

/-- A gist summary as returned by the Gist Source: opaque id, nullable
description and the list of file entries (the JavaScript object keyed by
filename, in key order). -/
structure Gist where
  id : String
  description : Option String
  files : List GistFile
deriving DecidableEq

/-- An error raised by the Gist Source client: the HTTP status the
handlers inspect, plus the rate-limit reset hint carried by the error
response headers, which the handlers never read. -/
structure GhError where
  status : Nat
  retryAfter : Option Nat
deriving DecidableEq

/-- Whether the first character list starts with the second one. -/
def startsWithList : List Char → List Char → Bool
  | _, [] => true
  | [], _ :: _ => false
  | a :: as, b :: bs => (a == b) && startsWithList as bs

/-- Whether the second character list occurs contiguously inside the
first: the model of JavaScript String.prototype.includes. -/
def hasSubList : List Char → List Char → Bool
  | [], needle => needle.isEmpty
  | a :: rest, needle => startsWithList (a :: rest) needle || hasSubList rest needle

/-- Case-insensitive containment, the model of the pervasive source
pattern hay.toLowerCase().includes(needle.toLowerCase()). -/
def strContainsCI (hay needle : String) : Bool :=
  hasSubList (hay.data.map Char.toLower) (needle.data.map Char.toLower)

/-- Model of JavaScript String.prototype.trim, used by the guard
if (!query.trim()) at the top of both handlers. -/
def jsTrim (s : String) : String :=
  String.mk (((s.data.dropWhile Char.isWhitespace).reverse.dropWhile Char.isWhitespace).reverse)

/-- Truthiness of an optional string field, as JavaScript sees it: a
missing field and the empty string are both falsy. -/
def contentTruthy : Option String → Bool
  | some s => s != ""
  | none => false

/-- The guarded containment pattern x && x.toLowerCase().includes(q):
false when the field is absent or empty, else a containment check. -/
def optTruthyContains (query : String) : Option String → Bool
  | some s => (s != "") && strContainsCI s query
  | none => false

/-- One iteration of the for-in loop over gist.files in both filter
passes: the filename matches, or the content is truthy and matches. -/
def fileMatches (query : String) (f : GistFile) : Bool :=
  strContainsCI f.filename query || optTruthyContains query f.content

/-- The filter callback that the source repeats verbatim in
filteredGists and finalFilteredGists: the description is truthy and
matches, or some file matches by filename or by inline content. -/
def matchesGist (query : String) (g : Gist) : Bool :=
  optTruthyContains query g.description || g.files.any (fileMatches query)

/-- Pass 1 of the pipeline, filteredGists in the source. -/
def filteredGists (query : String) (gists : List Gist) : List Gist :=
  gists.filter (matchesGist query)

/-- The per-gist needContent flag of the source: some file has falsy
content (absent, or present but empty). -/
def needsContent (g : Gist) : Bool :=
  g.files.any (fun f => !(contentTruthy f.content))

/-- The enrichment step for one pass-1 survivor: when some file lacks
inline content, issue the get-gist-by-id call and use its result; the
catch block turns any failure into the original summary. -/
def enrichGist (fetch : String → Except GhError Gist) (g : Gist) : Gist :=
  if needsContent g then
    match fetch g.id with
    | Except.ok fullGist => fullGist
    | Except.error _ => g
  else g

/-- The enriched candidate set, gistsWithContent in the source (the
awaited Promise.all over the pass-1 survivors). -/
def gistsWithContent (fetch : String → Except GhError Gist) (gists : List Gist) : List Gist :=
  gists.map (enrichGist fetch)

/-- Pass 2, finalFilteredGists in the source: the same predicate as
pass 1, re-run on the enriched candidate set. -/
def finalFilteredGists (query : String) (gists : List Gist) : List Gist :=
  gists.filter (matchesGist query)

/-- Outcome of a search request: a JSON list of gists, or an error body
with its HTTP status and message. -/
inductive SearchResult where
  | ok : List Gist → SearchResult
  | err : Nat → String → SearchResult
deriving DecidableEq

/-- The gists carried by a search outcome; an error body carries none. -/
def SearchResult.gists : SearchResult → List Gist
  | SearchResult.ok gs => gs
  | SearchResult.err _ _ => []

/-- The search handler from the query guard onward.  The listing
argument is the outcome of the single GET page-of-gists call and fetch
is the get-gist-by-id operation.  A listing failure reaches the route
catch block, which maps status 401 to the 401 response and every other
failure to the generic 500 response. -/
def searchGists (query : String) (listing : Except GhError (List Gist))
    (fetch : String → Except GhError Gist) : SearchResult :=
  if jsTrim query = "" then
    SearchResult.err 400 ("Search query is required")
  else
    match listing with
    | Except.error e =>
        if e.status = 401 then
          SearchResult.err 401 ("Invalid GitHub token. Please try again later.")
        else
          SearchResult.err 500 ("Failed to search gists")
    | Except.ok gists =>
        SearchResult.ok (finalFilteredGists query (gistsWithContent fetch (filteredGists query gists)))

/-- A call made to the Gist Source: the page listing request, or a
get-gist-by-id enrichment request for a given id. -/
inductive ApiCall where
  | listGists : ApiCall
  | getGist : String → ApiCall
deriving DecidableEq

/-- The ids for which the handler issues a get-gist-by-id call: exactly
the pass-1 survivors whose needContent flag is set, in listing order. -/
def enrichCallIds (query : String) (gists : List Gist) : List String :=
  ((filteredGists query gists).filter needsContent).map Gist.id

/-- The sequence of Gist Source calls a search performs: none when the
query guard rejects, else the one listing call followed by the
enrichment calls (the source awaits these concurrently; the trace lists
them in listing order). -/
def searchCallTrace (query : String) (listing : Except GhError (List Gist)) : List ApiCall :=
  if jsTrim query = "" then []
  else
    ApiCall.listGists ::
      (match listing with
       | Except.error _ => []
       | Except.ok gists => (enrichCallIds query gists).map ApiCall.getGist)

/-- Modelled from the spec wording of a match: the description contains
the query, or some filename contains it, or some file content contains
it, each case-insensitively.  Stated independently of the source
predicate so the two can be compared. -/
def SpecMatch (query : String) (g : Gist) : Prop :=
  (∃ d, g.description = some d ∧ strContainsCI d query = true)
  ∨ (∃ f ∈ g.files, strContainsCI f.filename query = true)
  ∨ (∃ f ∈ g.files, ∃ c, f.content = some c ∧ strContainsCI c query = true)

/-!
Concrete fixtures used by counterexamples and witnesses.  They follow
the sample listing of the spec: gist a with inlined content, gist b
whose file content is not inlined, plus variants for the edge cases.
-/

def fileY : GistFile := { filename := "y.js", content := none }

def gistB : Gist := { id := "b", description := some "", files := [fileY] }

def gistBFull : Gist :=
  { id := "b", description := some "",
    files := [{ filename := "y.js", content := some "wizardry inside" }] }

def fetchB : String → Except GhError Gist := fun i =>
  if i = "b" then Except.ok gistBFull
  else Except.error { status := 404, retryAfter := none }

def gistA : Gist :=
  { id := "a", description := some "helper script",
    files := [{ filename := "x.py", content := some "print(1)" }] }

def gistC : Gist :=
  { id := "c", description := none,
    files := [{ filename := "y.js", content := some "print(1)" }] }

def gistD : Gist := { id := "d", description := some "helper", files := [] }

def gistE : Gist :=
  { id := "e", description := some "helper script",
    files := [{ filename := "x.py", content := some "" }] }

def fetchFailAll : String → Except GhError Gist := fun _ =>
  Except.error { status := 500, retryAfter := none }

def rateLimitErr : GhError := { status := 403, retryAfter := some 1699999999 }

def transientErr : GhError := { status := 500, retryAfter := none }

theorem data_ne_nil_of_ne_empty (q : String) (hq : q ≠ "") : q.data ≠ [] := by
  intro h
  exact hq (String.ext (by rw [h]))

theorem strContainsCI_empty_left (q : String) (hq : q ≠ "") : strContainsCI ("") q = false := by
  have hd := data_ne_nil_of_ne_empty q hq
  unfold strContainsCI
  cases hq2 : q.data with
  | nil => exact absurd hq2 hd
  | cons a l =>
      rfl

theorem optTruthyContains_eq_true_iff (q : String) (o : Option String) :
    optTruthyContains q o = true ↔ ∃ d, o = some d ∧ d ≠ "" ∧ strContainsCI d q = true := by
  cases o with
  | none => simp [optTruthyContains]
  | some s => simp [optTruthyContains, bne_iff_ne]

theorem matchesGist_sound (q : String) (g : Gist) (h : matchesGist q g = true) :
    SpecMatch q g := by
  unfold matchesGist at h
  rcases Bool.or_eq_true_iff.mp h with hdesc | hfiles
  · rcases (optTruthyContains_eq_true_iff q g.description).mp hdesc with ⟨d, hd, _, hc⟩
    exact Or.inl ⟨d, hd, hc⟩
  · rcases List.any_eq_true.mp hfiles with ⟨f, hf, hm⟩
    rcases Bool.or_eq_true_iff.mp hm with hfn | hct
    · exact Or.inr (Or.inl ⟨f, hf, hfn⟩)
    · rcases (optTruthyContains_eq_true_iff q f.content).mp hct with ⟨c, hc, _, hcc⟩
      exact Or.inr (Or.inr ⟨f, hf, c, hc, hcc⟩)

theorem matchesGist_complete (q : String) (g : Gist) (hq : q ≠ "") (h : SpecMatch q g) :
    matchesGist q g = true := by
  unfold matchesGist
  apply Bool.or_eq_true_iff.mpr
  rcases h with ⟨d, hd, hc⟩ | ⟨f, hf, hfn⟩ | ⟨f, hf, c, hc, hcc⟩
  · left
    apply (optTruthyContains_eq_true_iff q g.description).mpr
    refine ⟨d, hd, ?_, hc⟩
    intro hde
    rw [hde] at hc
    rw [strContainsCI_empty_left q hq] at hc
    exact Bool.false_ne_true hc
  · right
    exact List.any_eq_true.mpr ⟨f, hf, Bool.or_eq_true_iff.mpr (Or.inl hfn)⟩
  · right
    apply List.any_eq_true.mpr
    refine ⟨f, hf, Bool.or_eq_true_iff.mpr (Or.inr ?_)⟩
    apply (optTruthyContains_eq_true_iff q f.content).mpr
    refine ⟨c, hc, ?_, hcc⟩
    intro hce
    rw [hce] at hcc
    rw [strContainsCI_empty_left q hq] at hcc
    exact Bool.false_ne_true hcc

theorem matchesGist_eq_true_iff (q : String) (g : Gist) (hq : q ≠ "") :
    matchesGist q g = true ↔ SpecMatch q g :=
  ⟨matchesGist_sound q g, matchesGist_complete q g hq⟩

theorem ne_empty_of_jsTrim_ne_empty (q : String) (hq : jsTrim q ≠ "") : q ≠ "" := by
  intro h
  rw [h] at hq
  exact hq rfl

theorem searchGists_ok_eq (q : String) (gs : List Gist) (fetch : String → Except GhError Gist)
    (hq : jsTrim q ≠ "") :
    searchGists q (Except.ok gs) fetch =
      SearchResult.ok (finalFilteredGists q (gistsWithContent fetch (filteredGists q gs))) := by
  unfold searchGists
  rw [if_neg hq]

theorem mem_finalResult_iff (q : String) (gs : List Gist)
    (fetch : String → Except GhError Gist) (r : Gist) :
    r ∈ finalFilteredGists q (gistsWithContent fetch (filteredGists q gs)) ↔
      (∃ g2, g2 ∈ gs ∧ matchesGist q g2 = true ∧ enrichGist fetch g2 = r) ∧
        matchesGist q r = true := by
  unfold finalFilteredGists gistsWithContent filteredGists
  constructor
  · intro h
    have h1 := List.mem_filter.mp h
    rcases List.mem_map.mp h1.1 with ⟨g2, hg2, he⟩
    have h2 := List.mem_filter.mp hg2
    exact ⟨⟨g2, h2.1, h2.2, he⟩, h1.2⟩
  · intro ⟨⟨g2, hg2, hm, he⟩, hr⟩
    apply List.mem_filter.mpr
    refine ⟨List.mem_map.mpr ⟨g2, List.mem_filter.mpr ⟨hg2, hm⟩, he⟩, hr⟩

theorem enrichGist_of_error (fetch : String → Except GhError Gist) (g : Gist) (e : GhError)
    (hf : fetch g.id = Except.error e) : enrichGist fetch g = g := by
  unfold enrichGist
  split
  · rw [hf]
  · rfl

/-- C2: every gist in a successful search response matches the query on
its description, some filename, or some file content, each as a
case-insensitive substring. -/
theorem C2_result_sound (q : String) (listing : Except GhError (List Gist))
    (fetch : String → Except GhError Gist) (res : List Gist)
    (h : searchGists q listing fetch = SearchResult.ok res) :
    ∀ g ∈ res, SpecMatch q g := by
  intro g hg
  by_cases hq : jsTrim q = ""
  · unfold searchGists at h
    rw [if_pos hq] at h
    simp at h
  · cases listing with
    | error e =>
        simp [searchGists, hq] at h
        split at h <;> simp at h
    | ok gs =>
        rw [searchGists_ok_eq q gs fetch hq] at h
        have hres := SearchResult.ok.inj h
        rw [← hres] at hg
        exact matchesGist_sound q g ((mem_finalResult_iff q gs fetch g).mp hg).2

theorem C2_result_sound_witness :
    SpecMatch ("helper") gistA :=
  C2_result_sound ("helper") (Except.ok [gistA]) fetchFailAll [gistA] (by decide) gistA (by decide)

/-- C5: an authentication failure of the listing call makes the whole
search return the 401 outcome with a zero-gist body, never a partial
result list. -/
theorem C5_auth_failure (q : String) (e : GhError) (fetch : String → Except GhError Gist)
    (hq : jsTrim q ≠ "") (he : e.status = 401) :
    searchGists q (Except.error e) fetch =
      SearchResult.err 401 ("Invalid GitHub token. Please try again later.") ∧
    (searchGists q (Except.error e) fetch).gists = [] := by
  have h1 : searchGists q (Except.error e) fetch =
      SearchResult.err 401 ("Invalid GitHub token. Please try again later.") := by
    unfold searchGists
    rw [if_neg hq]
    show (if e.status = 401 then
        SearchResult.err 401 ("Invalid GitHub token. Please try again later.")
      else SearchResult.err 500 ("Failed to search gists")) =
      SearchResult.err 401 ("Invalid GitHub token. Please try again later.")
    rw [if_pos he]
  exact ⟨h1, by rw [h1]; rfl⟩

theorem C5_auth_failure_witness :
    searchGists ("helper") (Except.error { status := 401, retryAfter := none }) fetchFailAll =
      SearchResult.err 401 ("Invalid GitHub token. Please try again later.") ∧
    (searchGists ("helper") (Except.error { status := 401, retryAfter := none }) fetchFailAll).gists = [] :=
  C5_auth_failure ("helper") { status := 401, retryAfter := none } fetchFailAll (by decide) rfl

/-- C6 counterexample: a rate-limit failure of the listing call (HTTP
403 carrying a reset hint) is mapped to the same generic 500 outcome as
a plain transient failure, so no distinct rate-limited outcome and no
retry-after information is surfaced. -/
theorem C6_counterexample :
    searchGists ("helper") (Except.error rateLimitErr) fetchFailAll =
      SearchResult.err 500 ("Failed to search gists") ∧
    searchGists ("helper") (Except.error rateLimitErr) fetchFailAll =
      searchGists ("helper") (Except.error transientErr) fetchFailAll := by decide

/-- C6 amended: a rate-limit error on the listing call is fatal to the
whole search, but it is surfaced as the generic 500 outcome (any status
other than 401), and the outcome is independent of the retry-after
information the source provides. -/
theorem C6_amended (q : String) (st : Nat) (r1 r2 : Option Nat)
    (f1 f2 : String → Except GhError Gist) (hq : jsTrim q ≠ "") (hs : st ≠ 401) :
    searchGists q (Except.error { status := st, retryAfter := r1 }) f1 =
      SearchResult.err 500 ("Failed to search gists") ∧
    searchGists q (Except.error { status := st, retryAfter := r1 }) f1 =
      searchGists q (Except.error { status := st, retryAfter := r2 }) f2 := by
  have h : ∀ (r : Option Nat) (f : String → Except GhError Gist),
      searchGists q (Except.error { status := st, retryAfter := r }) f =
        SearchResult.err 500 ("Failed to search gists") := by
    intro r f
    unfold searchGists
    rw [if_neg hq]
    show (if ({ status := st, retryAfter := r } : GhError).status = 401 then
        SearchResult.err 401 ("Invalid GitHub token. Please try again later.")
      else SearchResult.err 500 ("Failed to search gists")) =
      SearchResult.err 500 ("Failed to search gists")
    rw [if_neg hs]
  exact ⟨h r1 f1, (h r1 f1).trans (h r2 f2).symm⟩

theorem C6_amended_witness :
    searchGists ("helper") (Except.error { status := 403, retryAfter := some 42 }) fetchFailAll =
      SearchResult.err 500 ("Failed to search gists") ∧
    searchGists ("helper") (Except.error { status := 403, retryAfter := some 42 }) fetchFailAll =
      searchGists ("helper") (Except.error { status := 403, retryAfter := none }) fetchB :=
  C6_amended ("helper") 403 (some 42) none fetchFailAll fetchB (by decide) (by decide)

/-- C7: a blank query is rejected with the 400 outcome before any Gist
Source call: the call trace is empty. -/
theorem C7_blank_query (q : String) (listing : Except GhError (List Gist))
    (fetch : String → Except GhError Gist) (hq : jsTrim q = "") :
    searchGists q listing fetch = SearchResult.err 400 ("Search query is required") ∧
    searchCallTrace q listing = [] := by
  constructor
  · unfold searchGists
    rw [if_pos hq]
  · unfold searchCallTrace
    rw [if_pos hq]

theorem C7_blank_query_witness :
    searchGists ("   ") (Except.ok [gistA]) fetchFailAll =
      SearchResult.err 400 ("Search query is required") ∧
    searchCallTrace ("   ") (Except.ok [gistA]) = [] :=
  C7_blank_query ("   ") (Except.ok [gistA]) fetchFailAll (by decide)

/-- C1 counterexample: the query occurs only in the not-yet-inlined
content of gistB (not in its description, filename, or any inline
content, as the first two conjuncts record, while the fetched full gist
does contain it), yet the search issues zero get-gist-by-id calls and
returns an empty result, because pass 1 already drops the gist. -/
theorem C1_counterexample :
    strContainsCI ("wizardry inside") ("wizardry") = true ∧
    matchesGist ("wizardry") gistB = false ∧
    fetchB (gistB.id) = Except.ok gistBFull ∧
    searchCallTrace ("wizardry") (Except.ok [gistB]) = [ApiCall.listGists] ∧
    searchGists ("wizardry") (Except.ok [gistB]) fetchB = SearchResult.ok [] := by
  refine ⟨by decide, by decide, rfl, by decide, by decide⟩

/-- C1 amended: a gist whose description, filenames and inline content
all miss the query is dropped by pass 1, so the search issues no
get-gist-by-id call for it and nothing with its id appears in the final
result, no matter what its actual content holds. -/
theorem C1_amended (q : String) (gs : List Gist) (fetch : String → Except GhError Gist)
    (g : Gist) (hnomatch : matchesGist q g = false)
    (hid : ∀ g2 ∈ gs, g2.id = g.id → g2 = g)
    (hfetch : ∀ i g3, fetch i = Except.ok g3 → g3.id = i) :
    ApiCall.getGist (g.id) ∉ searchCallTrace q (Except.ok gs) ∧
    ∀ res, searchGists q (Except.ok gs) fetch = SearchResult.ok res →
      ∀ r ∈ res, r.id ≠ g.id := by
  have contra : ∀ g2, g2 ∈ gs → matchesGist q g2 = true → g2.id = g.id → False := by
    intro g2 hg2 hm hgid
    have he := hid g2 hg2 hgid
    rw [he] at hm
    exact Bool.false_ne_true (hnomatch.symm.trans hm)
  constructor
  · unfold searchCallTrace
    by_cases hq : jsTrim q = ""
    · rw [if_pos hq]
      simp
    · rw [if_neg hq]
      intro hin
      rcases List.mem_cons.mp hin with h1 | h1
      · exact ApiCall.noConfusion h1
      · rcases List.mem_map.mp h1 with ⟨i, hi, he⟩
        have hieq : i = g.id := by injection he
        unfold enrichCallIds at hi
        rcases List.mem_map.mp hi with ⟨g2, hg2, hgid⟩
        have hg2f := List.mem_filter.mp (List.mem_filter.mp hg2).1
        exact contra g2 hg2f.1 hg2f.2 (hgid.trans hieq)
  · intro res hres r hr
    by_cases hq : jsTrim q = ""
    · unfold searchGists at hres
      rw [if_pos hq] at hres
      simp at hres
    · rw [searchGists_ok_eq q gs fetch hq] at hres
      have h2 := SearchResult.ok.inj hres
      rw [← h2] at hr
      rcases (mem_finalResult_iff q gs fetch r).mp hr with ⟨⟨g2, hg2, hm2, he⟩, _⟩
      intro hrid
      unfold enrichGist at he
      split at he
      · cases hf : fetch g2.id with
        | ok full =>
            rw [hf] at he
            have hfull : full.id = g2.id := hfetch g2.id full hf
            rw [← he, hfull] at hrid
            exact contra g2 hg2 hm2 hrid
        | error err =>
            rw [hf] at he
            rw [← he] at hrid
            exact contra g2 hg2 hm2 hrid
      · rw [← he] at hrid
        exact contra g2 hg2 hm2 hrid

theorem C1_amended_witness :
    ApiCall.getGist (gistB.id) ∉ searchCallTrace ("wizardry") (Except.ok [gistB]) ∧
    ∀ res, searchGists ("wizardry") (Except.ok [gistB]) fetchB = SearchResult.ok res →
      ∀ r ∈ res, r.id ≠ gistB.id :=
  C1_amended ("wizardry") [gistB] fetchB gistB (by decide) (by decide)
    (by
      intro i g3 h
      unfold fetchB at h
      split at h
      case isTrue hc =>
        cases h
        subst hc
        exact rfl
      case isFalse hc =>
        cases h)

/-- C3 counterexample: pass 1 retains gistC for the query although
neither its description nor any filename matches: the inline file
content alone makes it pass, so the metadata-only wording of the claim
is refuted. -/
theorem C3_counterexample :
    filteredGists ("print") [gistC] = [gistC] ∧
    optTruthyContains ("print") gistC.description = false ∧
    (∀ f ∈ gistC.files, strContainsCI f.filename ("print") = false) := by decide

/-- C3 amended: pass 1 retains exactly the gists whose description, some
filename, or some already-inlined file content matches the query, and a
search performs at most one listing call. -/
theorem C3_amended_pass1 (q : String) (gs : List Gist) (g : Gist) (hq : q ≠ "") :
    (g ∈ filteredGists q gs ↔ g ∈ gs ∧ SpecMatch q g) ∧
    (∀ listing : Except GhError (List Gist),
      (searchCallTrace q listing).count ApiCall.listGists ≤ 1) := by
  constructor
  · constructor
    · intro h
      have h2 := List.mem_filter.mp h
      exact ⟨h2.1, matchesGist_sound q g h2.2⟩
    · intro h
      exact List.mem_filter.mpr ⟨h.1, matchesGist_complete q g hq h.2⟩
  · intro listing
    unfold searchCallTrace
    by_cases hb : jsTrim q = ""
    · rw [if_pos hb]
      simp
    · rw [if_neg hb]
      cases listing with
      | error e => simp
      | ok gs2 =>
          rw [List.count_cons_self]
          have hz : (List.map ApiCall.getGist (enrichCallIds q gs2)).count ApiCall.listGists = 0 := by
            apply List.count_eq_zero.mpr
            intro hmem2
            rcases List.mem_map.mp hmem2 with ⟨i, _, hgi⟩
            exact ApiCall.noConfusion hgi
          rw [hz]
  
theorem C3_amended_pass1_witness :
    (gistC ∈ filteredGists ("print") [gistC] ↔ gistC ∈ [gistC] ∧ SpecMatch ("print") gistC) ∧
    (∀ listing : Except GhError (List Gist),
      (searchCallTrace ("print") listing).count ApiCall.listGists ≤ 1) :=
  C3_amended_pass1 ("print") [gistC] gistC (by decide)

/-- C4: when the get-gist-by-id call for a gist fails, the search still
completes with a success outcome, the original content-incomplete
summary replaces the enrichment result and stays in the candidate set,
membership of that gist in the final result is decided exactly by the
filter predicate on the original summary (so a description or filename
match keeps it eligible), and any match it has is attributable to its
description, a filename, or content that is actually present - never to
the missing content. -/
theorem C4_enrich_failure (q : String) (gs : List Gist)
    (fetch : String → Except GhError Gist) (g : Gist) (e : GhError)
    (hq : jsTrim q ≠ "") (hf : fetch g.id = Except.error e) :
    (∃ res, searchGists q (Except.ok gs) fetch = SearchResult.ok res) ∧
    enrichGist fetch g = g ∧
    (g ∈ filteredGists q gs → g ∈ gistsWithContent fetch (filteredGists q gs)) ∧
    (∀ res, searchGists q (Except.ok gs) fetch = SearchResult.ok res →
      ((g ∈ res → matchesGist q g = true) ∧ (g ∈ gs → matchesGist q g = true → g ∈ res))) ∧
    (matchesGist q g = true → SpecMatch q g) := by
  have hen := enrichGist_of_error fetch g e hf
  refine ⟨⟨_, searchGists_ok_eq q gs fetch hq⟩, hen, ?_, ?_, matchesGist_sound q g⟩
  · intro hmem
    unfold gistsWithContent
    exact List.mem_map.mpr ⟨g, hmem, hen⟩
  · intro res hres
    rw [searchGists_ok_eq q gs fetch hq] at hres
    have h2 := SearchResult.ok.inj hres
    constructor
    · intro hr
      rw [← h2] at hr
      exact ((mem_finalResult_iff q gs fetch g).mp hr).2
    · intro hgs hm
      rw [← h2]
      exact (mem_finalResult_iff q gs fetch g).mpr ⟨⟨g, hgs, hm, hen⟩, hm⟩

theorem C4_enrich_failure_witness :
    (∃ res, searchGists ("y.js") (Except.ok [gistB]) fetchFailAll = SearchResult.ok res) ∧
    enrichGist fetchFailAll gistB = gistB ∧
    (gistB ∈ filteredGists ("y.js") [gistB] →
      gistB ∈ gistsWithContent fetchFailAll (filteredGists ("y.js") [gistB])) ∧
    (∀ res, searchGists ("y.js") (Except.ok [gistB]) fetchFailAll = SearchResult.ok res →
      ((gistB ∈ res → matchesGist ("y.js") gistB = true) ∧
        (gistB ∈ [gistB] → matchesGist ("y.js") gistB = true → gistB ∈ res))) ∧
    (matchesGist ("y.js") gistB = true → SpecMatch ("y.js") gistB) :=
  C4_enrich_failure ("y.js") [gistB] fetchFailAll gistB transientErr (by decide) rfl

/-- C8 counterexample: every file of gistE carries an inline content
field (the empty string), yet the search issues a get-gist-by-id call
for it, because the source tests content with JavaScript truthiness. -/
theorem C8_counterexample :
    (∀ f ∈ gistE.files, f.content ≠ none) ∧
    searchCallTrace ("helper") (Except.ok [gistE]) =
      [ApiCall.listGists, ApiCall.getGist ("e")] := by decide

/-- C8 amended: when every file of every listed gist carries non-empty
inline content, the search issues zero get-gist-by-id enrichment
calls. -/
theorem C8_amended (q : String) (gs : List Gist)
    (h : ∀ g ∈ gs, ∀ f ∈ g.files, ∃ c, f.content = some c ∧ c ≠ "") :
    enrichCallIds q gs = [] ∧
    ∀ i, ApiCall.getGist i ∉ searchCallTrace q (Except.ok gs) := by
  have hnc : ∀ g ∈ gs, needsContent g = false := by
    intro g hg
    unfold needsContent
    cases hb : (g.files.any fun f => !(contentTruthy f.content))
    · rfl
    · exfalso
      rcases List.any_eq_true.mp hb with ⟨f, hfm, hft⟩
      rcases h g hg f hfm with ⟨c, hc, hcne⟩
      rw [hc] at hft
      simp [contentTruthy, bne_iff_ne] at hft
      exact hcne hft
  have hfilter : (filteredGists q gs).filter needsContent = [] := by
    apply List.filter_eq_nil_iff.mpr
    intro g hg
    have hgs := (List.mem_filter.mp hg).1
    rw [hnc g hgs]
    simp
  constructor
  · unfold enrichCallIds
    rw [hfilter]
    rfl
  · intro i
    unfold searchCallTrace
    by_cases hb : jsTrim q = ""
    · rw [if_pos hb]
      simp
    · rw [if_neg hb]
      intro hin
      rcases List.mem_cons.mp hin with h1 | h1
      · exact ApiCall.noConfusion h1
      · have h1b : ApiCall.getGist i ∈ List.map ApiCall.getGist (enrichCallIds q gs) := h1
        unfold enrichCallIds at h1b
        rw [hfilter] at h1b
        simp at h1b

theorem C8_amended_witness :
    enrichCallIds ("print") [gistA] = [] ∧
    ∀ i, ApiCall.getGist i ∉ searchCallTrace ("print") (Except.ok [gistA]) :=
  C8_amended ("print") [gistA] (by decide)

/-- C9: a gist with zero files flows through the whole pipeline without
error - the search returns a success outcome - and it appears in the
final result exactly when its description contains the query. -/
theorem C9_zero_files (q : String) (gs : List Gist) (fetch : String → Except GhError Gist)
    (g : Gist) (hq : jsTrim q ≠ "") (hmem : g ∈ gs) (hfiles : g.files = []) :
    (∃ res, searchGists q (Except.ok gs) fetch = SearchResult.ok res) ∧
    (∀ res, searchGists q (Except.ok gs) fetch = SearchResult.ok res →
      (g ∈ res ↔ ∃ d, g.description = some d ∧ strContainsCI d q = true)) := by
  have hq2 : q ≠ "" := ne_empty_of_jsTrim_ne_empty q hq
  have hmatch : matchesGist q g = true ↔
      ∃ d, g.description = some d ∧ strContainsCI d q = true := by
    rw [matchesGist_eq_true_iff q g hq2]
    unfold SpecMatch
    rw [hfiles]
    simp
  have hnc : needsContent g = false := by
    unfold needsContent
    rw [hfiles]
    rfl
  have hen : enrichGist fetch g = g := by
    simp [enrichGist, hnc]
  refine ⟨⟨_, searchGists_ok_eq q gs fetch hq⟩, ?_⟩
  intro res hres
  rw [searchGists_ok_eq q gs fetch hq] at hres
  have h2 := SearchResult.ok.inj hres
  rw [← h2]
  constructor
  · intro hr
    exact hmatch.mp ((mem_finalResult_iff q gs fetch g).mp hr).2
  · intro hd
    have hm := hmatch.mpr hd
    exact (mem_finalResult_iff q gs fetch g).mpr ⟨⟨g, hmem, hm, hen⟩, hm⟩

theorem C9_zero_files_witness :
    (∃ res, searchGists ("helper") (Except.ok [gistD]) fetchFailAll = SearchResult.ok res) ∧
    (∀ res, searchGists ("helper") (Except.ok [gistD]) fetchFailAll = SearchResult.ok res →
      (gistD ∈ res ↔ ∃ d, gistD.description = some d ∧ strContainsCI d ("helper") = true)) :=
  C9_zero_files ("helper") [gistD] fetchFailAll gistD (by decide) (by decide) rfl

/-- C10: no enrichment failure of any class is ever fatal: for every
fetch oracle the search outcome is a success, and every gist whose
fetch fails - whatever the error status - keeps its original summary. -/
theorem C10_enrich_never_fatal (q : String) (gs : List Gist) (hq : jsTrim q ≠ "") :
    (∀ fetch : String → Except GhError Gist,
      ∃ res, searchGists q (Except.ok gs) fetch = SearchResult.ok res) ∧
    (∀ fetch : String → Except GhError Gist, ∀ g : Gist, ∀ e : GhError,
      fetch g.id = Except.error e → enrichGist fetch g = g) :=
  ⟨fun fetch => ⟨_, searchGists_ok_eq q gs fetch hq⟩,
    fun fetch g e hf => enrichGist_of_error fetch g e hf⟩

theorem C10_enrich_never_fatal_witness :
    (∀ fetch : String → Except GhError Gist,
      ∃ res, searchGists ("helper") (Except.ok [gistB]) fetch = SearchResult.ok res) ∧
    (∀ fetch : String → Except GhError Gist, ∀ g : Gist, ∀ e : GhError,
      fetch g.id = Except.error e → enrichGist fetch g = g) :=
  C10_enrich_never_fatal ("helper") [gistB] (by decide)

end GistApp
